import Mathlib

/-!
Verification of the xenorchestra backup client (`client/backup.go`,
`xoa/data_source_backups.go`) against its natural-language specification.

The Go code is shallowly embedded: pure functions become Lean functions,
the RPC transport / lookup collaborators become an explicit oracle
environment (`Env`), and the side effects of an orchestrated operation are
recorded as an explicit event trace.
-/

namespace XOBackup

/-! ## Go `encoding/json` string marshaling

`json.Marshal` on a Go `string` produces a double-quoted JSON string with
the standard escapes; the default encoder additionally escapes the
HTML-sensitive characters and the line separators U+2028/U+2029. -/

/-- Lowercase hexadecimal digit, as Go's `encoding/json` emits in escapes. -/
def hexDigit (n : Nat) : Char :=
  if n < 10 then Char.ofNat (48 + n) else Char.ofNat (87 + n)

/-- The escape of one character in Go's `encoding/json` string encoder
(with the default HTML escaping that `json.Marshal` applies). -/
def goEscapeChar (c : Char) : List Char :=
  if c = '"' then ['\\', '"']
  else if c = '\\' then ['\\', '\\']
  else if c = '\n' then ['\\', 'n']
  else if c = '\r' then ['\\', 'r']
  else if c = '\t' then ['\\', 't']
  else if c = '<' ∨ c = '>' ∨ c = '&' ∨ c.toNat < 32 then
    ['\\', 'u', hexDigit (c.toNat / 4096 % 16), hexDigit (c.toNat / 256 % 16),
      hexDigit (c.toNat / 16 % 16), hexDigit (c.toNat % 16)]
  else if c.toNat = 0x2028 ∨ c.toNat = 0x2029 then
    ['\\', 'u', '2', '0', '2', hexDigit (c.toNat % 16)]
  else [c]

/-- `json.Marshal` applied to a Go string: the quoted, escaped form. -/
def goJsonMarshalString (s : String) : String :=
  String.mk ('"' :: (s.data.flatMap goEscapeChar ++ ['"']))

/-- `client.FlatResourceSet` (backup.go line 33). -/
structure FlatResourceSet where
  Id : String
deriving DecidableEq, Repr

/-- `FlatResourceSet.MarshalJSON` (backup.go lines 50-58): if `len(rs.Id) == 0`
the literal bytes `null` are returned, otherwise `json.Marshal(rs.Id)`. -/
def FlatResourceSet.MarshalJSON (rs : FlatResourceSet) : String :=
  if rs.Id.length = 0 then "null" else goJsonMarshalString rs.Id

theorem goEscapeChar_ne_nil (c : Char) : goEscapeChar c ≠ [] := by
  unfold goEscapeChar
  split <;> try simp
  split <;> try simp
  split <;> try simp
  split <;> try simp
  split <;> try simp
  split <;> try simp
  split <;> simp

theorem flatMap_goEscapeChar_ne_nil {l : List Char} (h : l ≠ []) :
    l.flatMap goEscapeChar ≠ [] := by
  cases l with
  | nil => exact absurd rfl h
  | cons c cs =>
    simp only [List.flatMap_cons, ne_eq, List.append_eq_nil, not_and]
    intro hc
    exact absurd hc (goEscapeChar_ne_nil c)

/-- C1: `FlatResourceSet.MarshalJSON` returns the literal JSON token `null`
exactly when the `Id` field is empty; for a non-empty `Id` it returns the
JSON string encoding of `Id` — a double-quoted string literal with a
non-empty body, which is neither `null`, nor the empty output, nor an
object. -/
theorem C1_flatResourceSet_marshal (rs : FlatResourceSet) :
    (rs.Id = "" → rs.MarshalJSON = "null") ∧
    (rs.Id ≠ "" →
      rs.MarshalJSON = goJsonMarshalString rs.Id ∧
      rs.MarshalJSON ≠ "null" ∧
      rs.MarshalJSON ≠ "" ∧
      ∃ body, body ≠ [] ∧ rs.MarshalJSON = String.mk ('"' :: (body ++ ['"']))) := by
  constructor
  · intro h
    simp [FlatResourceSet.MarshalJSON, h]
  · intro h
    have hlen : rs.Id.length ≠ 0 := by
      intro hl
      exact h (String.ext (List.length_eq_zero.mp hl))
    have hm : rs.MarshalJSON = goJsonMarshalString rs.Id := by
      simp [FlatResourceSet.MarshalJSON, hlen]
    have hdata : rs.Id.data ≠ [] := by
      intro hd
      exact hlen (by simp [String.length, hd])
    refine ⟨hm, ?_, ?_, ?_⟩
    · rw [hm]
      intro hcontra
      have hd := congrArg String.data hcontra
      simp only [goJsonMarshalString] at hd
      have : ('"' : Char) = 'n' := by
        have : ('"' :: (rs.Id.data.flatMap goEscapeChar ++ ['"'])) = ['n', 'u', 'l', 'l'] := hd
        exact (List.cons.injEq _ _ _ _ ▸ this).1
      exact absurd this (by decide)
    · rw [hm]
      intro hcontra
      have hd := congrArg String.data hcontra
      simp only [goJsonMarshalString] at hd
      exact List.cons_ne_nil _ _ hd
    · exact ⟨rs.Id.data.flatMap goEscapeChar, flatMap_goEscapeChar_ne_nil hdata, hm⟩

/-- Witness for C1 at concrete inputs: the empty identifier marshals to
`null`, the identifier `"abc"` marshals to the quoted string. -/
theorem C1_flatResourceSet_marshal_witness :
    (FlatResourceSet.mk "").MarshalJSON = "null" ∧
    (FlatResourceSet.mk "abc").MarshalJSON = goJsonMarshalString "abc" := by
  refine ⟨(C1_flatResourceSet_marshal ⟨""⟩).1 rfl, ?_⟩
  exact ((C1_flatResourceSet_marshal ⟨"abc"⟩).2 (by decide)).1

/-! ## The client data model

Go maps with string keys/values are embedded as association lists; Go's
zero values are the Lean defaults. `VmBackup` carries the declared fields
of the struct (backup.go lines 60-68) together with the `PowerState` and
`WaitForIps` fields that `CreateBackup`/`waitForModifyBackup` read. -/

/-- `client.VmBackup`. -/
structure VmBackup where
  Vms : List (String × String) := []
  Remotes : List (String × String) := []
  «Type» : String := ""
  Id : String := ""
  Settings : List (String × String) := []
  Name : String := ""
  Mode : String := ""
  PowerState : String := ""
  WaitForIps : List (String × String) := []
deriving DecidableEq, Repr

/-- `VmBackup.Compare` (backup.go lines 70-81): match by non-empty equal id,
else by non-empty equal name, else no match. -/
def VmBackup.Compare (v other : VmBackup) : Bool :=
  if v.Id != "" && v.Id == other.Id then true
  else if v.Name != "" && v.Name == other.Name then true
  else false

/-- A value in an RPC parameter map (`map[string]interface{}`). -/
inductive Value where
  | bool (b : Bool)
  | str (s : String)
  | strMap (m : List (String × String))
deriving DecidableEq, Repr

/-- An RPC parameter map, in the source's construction order. -/
abbrev Params := List (String × Value)

/-- Errors surfaced by the client. `notFound` is the typed `NotFound` error
of the lookup collaborator; `singleMatchExpected` is the
`errors.New("expected to find a single VmBackup ... instead found %d")`
error built in `GetBackup` (backup.go line 173); `rpc` stands for any
error of the RPC transport or of a wait. -/
inductive ClientError where
  | notFound (req : VmBackup)
  | singleMatchExpected (req : VmBackup) (count : Nat)
  | rpc (msg : String)
deriving DecidableEq, Repr

/-- One observable side effect of an orchestrated operation. -/
inductive Event where
  | call (method : String) (params : Params)
  | sleep (seconds : Nat)
  | powerWait (id : String) (desiredPowerState : String) (timeout : Nat)
  | ipWait (id : String) (waitForIps : List (String × String)) (timeout : Nat)
  | fetch (req : VmBackup)
deriving DecidableEq, Repr

/-- Whether an event is an invocation of the poll-loop waiter. -/
def Event.isWait : Event → Bool
  | .powerWait _ _ _ => true
  | .ipWait _ _ _ => true
  | _ => false

/-- Whether an event is a lookup of remote objects (`FindFromGetAllObjects`). -/
def Event.isFetch : Event → Bool
  | .fetch _ => true
  | _ => false

/-- The oracle environment standing for the external collaborators: the
answers of the RPC transport to `backup.create` and `backup.set`, the
outcomes of the two wait helpers, and the snapshot of remote objects the
lookup collaborator filters. -/
structure Env where
  createResult : Except ClientError String
  setResult : Except ClientError Bool
  powerWaitResult : Option ClientError
  ipWaitResult : Option ClientError
  objects : List VmBackup

/-- Modelled from the spec: `FindFromGetAllObjects` (not under src/) is the
lookup collaborator, `find(predicate) -> list of matching objects`; it
filters the snapshot by the request's `Compare` predicate and classifies
zero matches as the typed `NotFound` error (spec sections 6 and 7; the test
helper `FindOrCreateBackupForTests` checks `err.(NotFound)` on the result
of `GetBackup`). -/
def FindFromGetAllObjects (env : Env) (req : VmBackup) :
    Except ClientError (List VmBackup) :=
  let found := env.objects.filter (fun o => req.Compare o)
  if found.isEmpty then .error (.notFound req) else .ok found

/-- The pair of return values of a Go function returning
`(*VmBackup, error)`: each `return` site fills exactly one side. -/
abbrev GoResult := Option VmBackup × Option ClientError

/-- `Client.GetBackup` (backup.go lines 164-178): look up by
`FindFromGetAllObjects`, propagate its error, demand exactly one match,
otherwise build the cardinality error. -/
def GetBackup (env : Env) (backupReq : VmBackup) : GoResult × List Event :=
  match FindFromGetAllObjects env backupReq with
  | .error e => ((none, some e), [.fetch backupReq])
  | .ok backups =>
    if h : backups.length = 1 then
      ((some (backups.get ⟨0, by omega⟩), none), [.fetch backupReq])
    else
      ((none, some (.singleMatchExpected backupReq backups.length)), [.fetch backupReq])

/-- Modelled from the spec: `waitForPowerStateReached` (not under src/)
blocks until the desired power state is observed or the wait fails; its
outcome is the environment's oracle answer. -/
def waitForPowerStateReached (env : Env) (id desiredPowerState : String)
    (timeout : Nat) : Option ClientError × List Event :=
  (env.powerWaitResult, [.powerWait id desiredPowerState timeout])

/-- Modelled from the spec: `waitForIPAssignment` (not under src/) blocks
until every requested interface has an address or the wait fails; its
outcome is the environment's oracle answer. -/
def waitForIPAssignment (env : Env) (id : String)
    (waitForIps : List (String × String)) (timeout : Nat) :
    Option ClientError × List Event :=
  (env.ipWaitResult, [.ipWait id waitForIps timeout])

/-- `Client.waitForModifyBackup` (backup.go lines 196-202): dispatch on
whether the desired address set is empty. -/
def waitForModifyBackup (env : Env) (id desiredPowerState : String)
    (waitForIps : List (String × String)) (timeout : Nat) :
    Option ClientError × List Event :=
  if waitForIps.length = 0 then
    waitForPowerStateReached env id desiredPowerState timeout
  else
    waitForIPAssignment env id waitForIps timeout

/-- The parameter map `CreateBackup` builds for `backup.create`
(backup.go lines 85-93). -/
def createParams (backupReq : VmBackup) : Params :=
  [("enabled", .bool false), ("type", .str backupReq.«Type»),
   ("name", .str backupReq.Name), ("vms", .strMap backupReq.Vms),
   ("mode", .str backupReq.Mode), ("remotes", .strMap backupReq.Remotes),
   ("settings", .strMap backupReq.Settings)]

/-- `Client.CreateBackup` (backup.go lines 83-124): issue `backup.create`,
then `backup.set` on the returned id, then the wait, then the final fetch
by id; any error aborts immediately. -/
def CreateBackup (env : Env) (backupReq : VmBackup) (createTime : Nat) :
    GoResult × List Event :=
  match env.createResult with
  | .error e => ((none, some e), [.call "backup.create" (createParams backupReq)])
  | .ok backupId =>
    let xsParams : Params := [("id", .str backupId)]
    match env.setResult with
    | .error e =>
      ((none, some e),
       [.call "backup.create" (createParams backupReq), .call "backup.set" xsParams])
    | .ok _success =>
      let w := waitForModifyBackup env backupId backupReq.PowerState
        backupReq.WaitForIps createTime
      match w.1 with
      | some e =>
        ((none, some e),
         [.call "backup.create" (createParams backupReq),
          .call "backup.set" xsParams] ++ w.2)
      | none =>
        let g := GetBackup env { Id := backupId }
        (g.1,
         [.call "backup.create" (createParams backupReq),
          .call "backup.set" xsParams] ++ w.2 ++ g.2)

/-- The parameter map `UpdateBackup` builds for `backup.set`
(backup.go lines 127-136). -/
def updateParams (backupReq : VmBackup) : Params :=
  [("id", .str backupReq.Id), ("enabled", .bool false),
   ("type", .str backupReq.«Type»), ("name", .str backupReq.Name),
   ("vms", .strMap backupReq.Vms), ("mode", .str backupReq.Mode),
   ("remotes", .strMap backupReq.Remotes), ("settings", .strMap backupReq.Settings)]

/-- `Client.UpdateBackup` (backup.go lines 126-150): issue `backup.set`,
then `time.Sleep(25 * time.Second)`, then the final fetch with the request
itself. No waiter is involved. -/
def UpdateBackup (env : Env) (backupReq : VmBackup) : GoResult × List Event :=
  match env.setResult with
  | .error e => ((none, some e), [.call "backup.set" (updateParams backupReq)])
  | .ok _success =>
    let g := GetBackup env backupReq
    (g.1, [.call "backup.set" (updateParams backupReq), .sleep 25] ++ g.2)

/-! ## Helper lemmas about the orchestrators -/

/-- A Go `(*VmBackup, error)` return pair is exclusive: exactly one side set. -/
def GoResult.exclusive (r : GoResult) : Prop :=
  (r.1.isSome = true ∧ r.2 = none) ∨ (r.1 = none ∧ r.2.isSome = true)

theorem GetBackup_trace (env : Env) (req : VmBackup) :
    (GetBackup env req).2 = [.fetch req] := by
  unfold GetBackup
  rcases FindFromGetAllObjects env req with e | bs
  · rfl
  · dsimp only
    split <;> rfl

theorem GetBackup_exclusive (env : Env) (req : VmBackup) :
    (GetBackup env req).1.exclusive := by
  unfold GetBackup
  rcases FindFromGetAllObjects env req with e | bs
  · right; exact ⟨rfl, rfl⟩
  · dsimp only
    split
    · left; exact ⟨rfl, rfl⟩
    · right; exact ⟨rfl, rfl⟩

theorem waitForModifyBackup_trace (env : Env) (id st : String)
    (ips : List (String × String)) (t : Nat) :
    (waitForModifyBackup env id st ips t).2 =
      if ips.length = 0 then [.powerWait id st t] else [.ipWait id ips t] := by
  unfold waitForModifyBackup waitForPowerStateReached waitForIPAssignment
  split <;> simp_all

theorem GetBackup_ok_id (env : Env) (id : String) (vm : VmBackup)
    (h : (GetBackup env { Id := id }).1.1 = some vm) : vm.Id = id := by
  unfold GetBackup at h
  rcases hf : FindFromGetAllObjects env { Id := id } with e | bs
  · rw [hf] at h
    simp at h
  · rw [hf] at h
    dsimp only at h
    split at h
    · next hlen =>
      have hmem : bs.get ⟨0, by omega⟩ ∈ bs := List.get_mem bs 0 (by omega)
      have hvm : vm ∈ bs := by
        simp only [Option.some.injEq] at h
        exact h ▸ hmem
      have hbs : bs = env.objects.filter (fun o => VmBackup.Compare { Id := id } o) := by
        unfold FindFromGetAllObjects at hf
        dsimp only at hf
        split at hf
        · exact absurd hf (by simp)
        · injection hf with h2
          exact h2.symm
      have hcmp : VmBackup.Compare { Id := id } vm = true :=
        (List.mem_filter.mp (hbs ▸ hvm)).2
      unfold VmBackup.Compare at hcmp
      simp only [bne_iff_ne, ne_eq, Bool.and_eq_true, beq_iff_eq] at hcmp
      split at hcmp
      · next hc => exact hc.2.symm
      · split at hcmp <;> simp_all
    · simp at h

/-! ## Theorems for the orchestrator claims -/

/-- C7: for `CreateBackup`, `UpdateBackup` and `GetBackup`, the returned
`(*VmBackup, error)` pair is exclusive — a nil error comes with a non-nil
backup object and vice versa; no return site fills both or neither. -/
theorem C7_result_error_exclusive (env : Env) (backupReq : VmBackup) (t : Nat) :
    (CreateBackup env backupReq t).1.exclusive ∧
    (UpdateBackup env backupReq).1.exclusive ∧
    (GetBackup env backupReq).1.exclusive := by
  refine ⟨?_, ?_, GetBackup_exclusive env backupReq⟩
  · unfold CreateBackup
    rcases env.createResult with e | id
    · right; exact ⟨rfl, rfl⟩
    · dsimp only
      rcases env.setResult with e | b
      · right; exact ⟨rfl, rfl⟩
      · dsimp only
        rcases hw : (waitForModifyBackup env id backupReq.PowerState
            backupReq.WaitForIps t).1 with _ | e
        · dsimp only
          exact GetBackup_exclusive env { Id := id }
        · dsimp only
          right; exact ⟨rfl, rfl⟩
  · unfold UpdateBackup
    rcases env.setResult with e | b
    · right; exact ⟨rfl, rfl⟩
    · exact GetBackup_exclusive env backupReq

/-- C4: `waitForModifyBackup` performs exactly the power-state wait (and no
address-assignment wait) when the desired address set is empty, and exactly
the address-assignment wait (instead of the power-state wait) when it is
non-empty. -/
theorem C4_waitForModifyBackup_dispatch (env : Env) (id st : String)
    (ips : List (String × String)) (t : Nat) :
    (ips = [] →
      waitForModifyBackup env id st ips t =
        (env.powerWaitResult, [.powerWait id st t])) ∧
    (ips ≠ [] →
      waitForModifyBackup env id st ips t =
        (env.ipWaitResult, [.ipWait id ips t])) := by
  constructor
  · intro h
    simp [waitForModifyBackup, waitForPowerStateReached, h]
  · intro h
    have : ips.length ≠ 0 := by
      simpa [List.length_eq_zero] using h
    simp [waitForModifyBackup, waitForIPAssignment, this]

/-- Witness for C4 at concrete inputs: the empty address set yields exactly
one power-state wait event; a one-entry address set yields exactly one
address-assignment wait event. -/
theorem C4_waitForModifyBackup_dispatch_witness :
    waitForModifyBackup (Env.mk (.ok "b1") (.ok true) none none []) "b1" "Enabled" [] 5 =
      (none, [.powerWait "b1" "Enabled" 5]) ∧
    waitForModifyBackup (Env.mk (.ok "b1") (.ok true) none none []) "b1" "Enabled"
        [("0", "ipv4")] 5 =
      (none, [.ipWait "b1" [("0", "ipv4")] 5]) :=
  ⟨(C4_waitForModifyBackup_dispatch _ "b1" "Enabled" [] 5).1 rfl,
   (C4_waitForModifyBackup_dispatch _ "b1" "Enabled" [("0", "ipv4")] 5).2 (by decide)⟩

/-- A concrete environment in which `backup.set` succeeds and the final
fetch finds exactly one object. -/
def envSetOk : Env where
  createResult := .ok "b1"
  setResult := .ok true
  powerWaitResult := none
  ipWaitResult := none
  objects := [{ Id := "b1" }]

/-- C2 counterexample: in `envSetOk` the `backup.set` command succeeds and
`UpdateBackup` completes successfully, yet its trace contains no waiter
invocation at all — the claim that control is handed to the poll-loop
waiter after a successful update command is false on the code, which
instead sleeps a fixed 25 seconds. -/
theorem C2_counterexample :
    envSetOk.setResult = .ok true ∧
    (UpdateBackup envSetOk { Id := "b1" }).1.1.isSome = true ∧
    (UpdateBackup envSetOk { Id := "b1" }).2.any Event.isWait = false ∧
    Event.sleep 25 ∈ (UpdateBackup envSetOk { Id := "b1" }).2 := by
  refine ⟨rfl, rfl, rfl, ?_⟩
  show Event.sleep 25 ∈ [Event.call "backup.set" (updateParams { Id := "b1" }),
    Event.sleep 25, Event.fetch { Id := "b1" }]
  simp

/-- C2 as amended: after `UpdateBackup` successfully issues the
`backup.set` update command it performs a fixed 25-second blocking sleep —
no poll-loop waiter is invoked — and then performs the final authoritative
fetch of the backup, whose result it returns. -/
theorem C2_update_sleep_then_fetch (env : Env) (req : VmBackup) (b : Bool)
    (h : env.setResult = .ok b) :
    (UpdateBackup env req).2 =
      [.call "backup.set" (updateParams req), .sleep 25, .fetch req] ∧
    (∀ e ∈ (UpdateBackup env req).2, e.isWait = false) ∧
    (UpdateBackup env req).1 = (GetBackup env req).1 := by
  have htrace : (UpdateBackup env req).2 =
      [.call "backup.set" (updateParams req), .sleep 25, .fetch req] := by
    unfold UpdateBackup
    rw [h]
    dsimp only
    rw [GetBackup_trace]
    rfl
  refine ⟨htrace, ?_, ?_⟩
  · intro e he
    rw [htrace] at he
    simp only [List.mem_cons, List.not_mem_nil, or_false] at he
    rcases he with h1 | h1 | h1 <;> subst h1 <;> rfl
  · unfold UpdateBackup
    rw [h]

/-- Witness for the amended C2 at a concrete environment. -/
theorem C2_update_sleep_then_fetch_witness :
    (UpdateBackup envSetOk { Id := "b1" }).2 =
      [.call "backup.set" (updateParams { Id := "b1" }), .sleep 25,
        .fetch { Id := "b1" }] :=
  (C2_update_sleep_then_fetch envSetOk { Id := "b1" } true rfl).1

/-- C5: if `backup.create` fails, or `backup.create` succeeds and the
subsequent `backup.set` fails, `CreateBackup` returns that error at once:
the trace holds only the command calls — no waiter invocation and no final
fetch. -/
theorem C5_create_command_error_aborts (env : Env) (req : VmBackup) (t : Nat)
    (e : ClientError)
    (h : env.createResult = .error e ∨
      (∃ id, env.createResult = .ok id ∧ env.setResult = .error e)) :
    (CreateBackup env req t).1 = (none, some e) ∧
    ∀ ev ∈ (CreateBackup env req t).2, ev.isWait = false ∧ ev.isFetch = false := by
  rcases h with h | ⟨id, hc, hs⟩
  · unfold CreateBackup
    rw [h]
    refine ⟨rfl, ?_⟩
    intro ev hev
    simp only [List.mem_singleton] at hev
    subst hev
    exact ⟨rfl, rfl⟩
  · unfold CreateBackup
    rw [hc]
    dsimp only
    rw [hs]
    refine ⟨rfl, ?_⟩
    intro ev hev
    simp only [List.mem_cons, List.not_mem_nil, or_false] at hev
    rcases hev with h1 | h1 <;> subst h1 <;> exact ⟨rfl, rfl⟩

/-- A concrete environment whose `backup.create` call fails. -/
def envCreateFails : Env where
  createResult := .error (.rpc "boom")
  setResult := .ok true
  powerWaitResult := none
  ipWaitResult := none
  objects := []

/-- Witness for C5 at a concrete environment where `backup.create` fails. -/
theorem C5_create_command_error_aborts_witness :
    (CreateBackup envCreateFails {} 5).1 = (none, some (.rpc "boom")) ∧
    ∀ ev ∈ (CreateBackup envCreateFails {} 5).2,
      ev.isWait = false ∧ ev.isFetch = false :=
  C5_create_command_error_aborts envCreateFails {} 5 (.rpc "boom") (Or.inl rfl)

/-- C6: when the create command, the set command and the wait all succeed,
`CreateBackup` performs exactly one fetch, keyed by the identity returned
from `backup.create`; the value it returns is that fetch's result, and any
object returned carries exactly that identity. -/
theorem C6_create_single_final_fetch (env : Env) (req : VmBackup) (t : Nat)
    (id : String) (b : Bool)
    (hc : env.createResult = .ok id) (hs : env.setResult = .ok b)
    (hw : (waitForModifyBackup env id req.PowerState req.WaitForIps t).1 = none) :
    (CreateBackup env req t).2.filter Event.isFetch = [.fetch { Id := id }] ∧
    (CreateBackup env req t).1 = (GetBackup env { Id := id }).1 ∧
    ∀ vm, (CreateBackup env req t).1.1 = some vm → vm.Id = id := by
  have hcb : CreateBackup env req t =
      ((GetBackup env { Id := id }).1,
        [.call "backup.create" (createParams req),
          .call "backup.set" [("id", .str id)]] ++
          (waitForModifyBackup env id req.PowerState req.WaitForIps t).2 ++
          (GetBackup env { Id := id }).2) := by
    unfold CreateBackup
    rw [hc]
    dsimp only
    rw [hs]
    dsimp only
    rw [hw]
  refine ⟨?_, ?_, ?_⟩
  · rw [hcb]
    dsimp only
    rw [GetBackup_trace, waitForModifyBackup_trace]
    split <;> rfl
  · rw [hcb]
  · intro vm hvm
    rw [hcb] at hvm
    exact GetBackup_ok_id env id vm hvm

/-- Witness for C6 at a concrete environment holding exactly one object
with the created identity. -/
theorem C6_create_single_final_fetch_witness :
    (CreateBackup envSetOk {} 5).2.filter Event.isFetch = [.fetch { Id := "b1" }] ∧
    (CreateBackup envSetOk {} 5).1 = (GetBackup envSetOk { Id := "b1" }).1 ∧
    ∀ vm, (CreateBackup envSetOk {} 5).1.1 = some vm → vm.Id = "b1" :=
  C6_create_single_final_fetch envSetOk {} 5 "b1" true rfl rfl rfl

/-- C9: both command parameter maps carry `"enabled"` fixed to `false`, and
neither parameter map depends on the request's desired power state — the
power state reaches only the wait dispatch, never the command parameters. -/
theorem C9_enabled_false_power_state_only_waits (req : VmBackup) (s1 s2 : String) :
    (createParams req).lookup "enabled" = some (.bool false) ∧
    (updateParams req).lookup "enabled" = some (.bool false) ∧
    createParams { req with PowerState := s1 } =
      createParams { req with PowerState := s2 } ∧
    updateParams { req with PowerState := s1 } =
      updateParams { req with PowerState := s2 } := by
  refine ⟨?_, ?_, rfl, rfl⟩ <;> rfl

/-- C3: `GetBackup` returns the single match when exactly one object
matches the request; zero matches yield the typed `NotFound` error, two or
more matches yield the cardinality error carrying the match count, and the
two error kinds are distinct constructors, distinguishable by the caller. -/
theorem C3_getBackup_cardinality (env : Env) (req : VmBackup) :
    ((env.objects.filter (fun o => req.Compare o)).length = 0 →
      (GetBackup env req).1 = (none, some (.notFound req))) ∧
    (∀ b, env.objects.filter (fun o => req.Compare o) = [b] →
      (GetBackup env req).1 = (some b, none)) ∧
    (2 ≤ (env.objects.filter (fun o => req.Compare o)).length →
      (GetBackup env req).1 = (none, some (.singleMatchExpected req
        (env.objects.filter (fun o => req.Compare o)).length))) ∧
    (∀ r₁ r₂ c, ClientError.notFound r₁ ≠ ClientError.singleMatchExpected r₂ c) := by
  refine ⟨?_, ?_, ?_, ?_⟩
  · intro h0
    have hnil : env.objects.filter (fun o => req.Compare o) = [] :=
      List.length_eq_zero.mp h0
    simp [GetBackup, FindFromGetAllObjects, hnil]
  · intro b hb
    simp [GetBackup, FindFromGetAllObjects, hb]
  · intro h2
    have hne : (env.objects.filter (fun o => req.Compare o)).isEmpty = false := by
      rcases hl : env.objects.filter (fun o => req.Compare o) with _ | ⟨x, xs⟩
      · rw [hl] at h2
        simp at h2
      · rfl
    have hlen : (env.objects.filter (fun o => req.Compare o)).length ≠ 1 := by
      omega
    simp [GetBackup, FindFromGetAllObjects, hne, hlen]
  · intro r₁ r₂ c h
    exact ClientError.noConfusion h

/-- A concrete environment holding two objects with the same identity. -/
def envTwoMatches : Env where
  createResult := .ok "x"
  setResult := .ok true
  powerWaitResult := none
  ipWaitResult := none
  objects := [{ Id := "a" }, { Id := "a" }]

/-- Witness for C3 at concrete environments: a request with no match gets
the `NotFound` error, a request with two matches gets the cardinality
error with count 2, a request with exactly one match gets the object. -/
theorem C3_getBackup_cardinality_witness :
    (GetBackup envTwoMatches { Id := "zzz" }).1 =
      (none, some (.notFound { Id := "zzz" })) ∧
    (GetBackup envTwoMatches { Id := "a" }).1 =
      (none, some (.singleMatchExpected { Id := "a" } 2)) ∧
    (GetBackup envSetOk { Id := "b1" }).1 = (some { Id := "b1" }, none) := by
  refine ⟨(C3_getBackup_cardinality envTwoMatches _).1 (by decide), ?_, ?_⟩
  · exact (C3_getBackup_cardinality envTwoMatches { Id := "a" }).2.2.1 (by decide)
  · exact (C3_getBackup_cardinality envSetOk _).2.1 { Id := "b1" } (by decide)

/-! ## The poll-loop waiter

The engine (`StateChangeConf.WaitForState` and the concrete waits it
backs) is not under src/: it is modelled from the spec, section 4.3. -/

/-- The verdict of a condition predicate on one polled value. -/
inductive PredResult where
  | pending
  | target
  | failure (state : String)
deriving DecidableEq, Repr

/-- The terminal outcome of a wait, carrying the elapsed time at return. -/
inductive WaitRet (V : Type) where
  | succeeded (v : V) (elapsed : Nat)
  | timedOut (last : Option V) (elapsed : Nat)
  | failed (elapsed : Nat)
deriving DecidableEq, Repr

/-- The elapsed time recorded in a wait outcome. -/
def WaitRet.elapsed {V : Type} : WaitRet V → Nat
  | .succeeded _ e => e
  | .timedOut _ e => e
  | .failed e => e

/-- Modelled from the spec: one run of the Poll Loop / State-Change Waiter
(spec section 4.3; the engine itself is not under src/). Each iteration
sleeps one poll interval, performs one refresh (the refresh source is the
sequence of per-attempt answers), counts a refresh error against the retry
budget, otherwise evaluates the condition predicate, and checks the
overall timeout before committing to another interval. `fuel` bounds the
recursion and is chosen large enough that it is never exhausted. -/
def pollGo {V : Type} (refresh : Nat → Except String V)
    (evaluate : V → PredResult) (interval timeout budget : Nat) :
    Nat → Nat → Nat → Option V → Nat → Option (WaitRet V)
  | _, _, _, _, 0 => none
  | elapsed, attempt, consecFail, last, fuel + 1 =>
    let elapsed' := elapsed + interval
    match refresh attempt with
    | .error _ =>
      if budget < consecFail + 1 then some (.failed elapsed')
      else if timeout ≤ elapsed' then some (.timedOut last elapsed')
      else pollGo refresh evaluate interval timeout budget elapsed'
        (attempt + 1) (consecFail + 1) last fuel
    | .ok v =>
      match evaluate v with
      | .target => some (.succeeded v elapsed')
      | .failure _ => some (.failed elapsed')
      | .pending =>
        if timeout ≤ elapsed' then some (.timedOut (some v) elapsed')
        else pollGo refresh evaluate interval timeout budget elapsed'
          (attempt + 1) 0 (some v) fuel

/-- Modelled from the spec: one wait call, entered with fresh poll state
(elapsed 0, attempt 0, no consecutive failures, no last observation). -/
def waitForStatePoll {V : Type} (refresh : Nat → Except String V)
    (evaluate : V → PredResult) (interval timeout budget : Nat) :
    Option (WaitRet V) :=
  pollGo refresh evaluate interval timeout budget 0 0 0 none (timeout + 1)

/-- The dispatch of `waitForModifyBackup` (backup.go lines 196-202) over
the modelled poll loop: an empty desired address set selects the
power-state wait, a non-empty one the address-assignment wait. -/
def waitForModifyBackupPoll {V : Type}
    (powerRefresh addrRefresh : Nat → Except String V)
    (powerPred addrPred : V → PredResult)
    (waitForIps : List (String × String))
    (interval timeout budget : Nat) : Option (WaitRet V) :=
  if waitForIps.length = 0 then
    waitForStatePoll powerRefresh powerPred interval timeout budget
  else
    waitForStatePoll addrRefresh addrPred interval timeout budget

theorem pollGo_bound {V : Type} (refresh : Nat → Except String V)
    (evaluate : V → PredResult) (interval timeout budget : Nat)
    (hi : 0 < interval) :
    ∀ fuel elapsed attempt consecFail last,
      elapsed ≤ timeout → timeout < elapsed + fuel →
      ∃ r, pollGo refresh evaluate interval timeout budget elapsed attempt
          consecFail last fuel = some r ∧
        r.elapsed ≤ timeout + interval := by
  intro fuel
  induction fuel with
  | zero =>
    intro elapsed attempt consecFail last h1 h2
    omega
  | succ n ih =>
    intro elapsed attempt consecFail last h1 h2
    rw [pollGo]
    cases href : refresh attempt with
    | error e =>
      dsimp only
      by_cases hb : budget < consecFail + 1
      · rw [if_pos hb]
        exact ⟨_, rfl, by simp only [WaitRet.elapsed]; omega⟩
      · rw [if_neg hb]
        by_cases hto : timeout ≤ elapsed + interval
        · rw [if_pos hto]
          exact ⟨_, rfl, by simp only [WaitRet.elapsed]; omega⟩
        · rw [if_neg hto]
          exact ih (elapsed + interval) (attempt + 1) (consecFail + 1) last
            (by omega) (by omega)
    | ok v =>
      dsimp only
      cases hev : evaluate v with
      | target => exact ⟨_, rfl, by simp only [WaitRet.elapsed]; omega⟩
      | failure s => exact ⟨_, rfl, by simp only [WaitRet.elapsed]; omega⟩
      | pending =>
        by_cases hto : timeout ≤ elapsed + interval
        · rw [if_pos hto]
          exact ⟨_, rfl, by simp only [WaitRet.elapsed]; omega⟩
        · rw [if_neg hto]
          exact ih (elapsed + interval) (attempt + 1) 0 (some v)
            (by omega) (by omega)

/-- C8: both wait modes reached through the `waitForModifyBackup` dispatch
terminate with an outcome whose elapsed time is at most the timeout plus
one poll interval — for every refresh source (in particular one that
errors on every attempt) and every finite retry budget. -/
theorem C8_wait_returns_within_bound {V : Type}
    (powerRefresh addrRefresh : Nat → Except String V)
    (powerPred addrPred : V → PredResult)
    (waitForIps : List (String × String))
    (interval timeout budget : Nat) (hi : 0 < interval) :
    ∃ r, waitForModifyBackupPoll powerRefresh addrRefresh powerPred addrPred
        waitForIps interval timeout budget = some r ∧
      r.elapsed ≤ timeout + interval := by
  unfold waitForModifyBackupPoll waitForStatePoll
  split
  · exact pollGo_bound powerRefresh powerPred interval timeout budget hi
      (timeout + 1) 0 0 0 none (by omega) (by omega)
  · exact pollGo_bound addrRefresh addrPred interval timeout budget hi
      (timeout + 1) 0 0 0 none (by omega) (by omega)

/-- Witness for C8 at a concrete wait whose refresh errors on every
attempt: interval 2, timeout 5, retry budget 1. -/
theorem C8_wait_returns_within_bound_witness :
    ∃ r, waitForModifyBackupPoll
        (fun _ => (Except.error "down" : Except String String))
        (fun _ => (Except.error "down" : Except String String))
        (fun _ => PredResult.pending) (fun _ => PredResult.pending)
        [] 2 5 1 = some r ∧
      r.elapsed ≤ 5 + 2 :=
  C8_wait_returns_within_bound
    (fun _ => (Except.error "down" : Except String String))
    (fun _ => (Except.error "down" : Except String String))
    (fun _ => PredResult.pending) (fun _ => PredResult.pending)
    [] 2 5 1 (by decide)

/-! ## The backups data source (`xoa/data_source_backups.go`) -/

/-- Go's `strings.Contains`: `sub` occurs as a contiguous substring of `s`. -/
def strContains (s sub : String) : Bool :=
  (List.range (s.data.length + 1)).any
    (fun i => sub.data.isPrefixOf (s.data.drop i))

/-- `client.CPUs` as read by the data source. -/
structure CPUs where
  Number : Nat := 0
deriving DecidableEq, Repr

/-- `client.MemoryObject` as read by the data source; Go reads
`Memory.Static[1]`. -/
structure MemoryObject where
  Static : List Int := []
deriving DecidableEq, Repr

/-- `client.Backup` as consumed by the data source (the struct declaration
itself is not under src/; these are exactly the fields `backupToMapList`
reads). -/
structure Backup where
  Id : String := ""
  NameLabel : String := ""
  CPUs : CPUs := {}
  CloudConfig : String := ""
  CloudNetworkConfig : String := ""
  Tags : List String := []
  Memory : MemoryObject := {}
  AffinityHost : String := ""
  Template : String := ""
  HA : String := ""
  PowerState : String := ""
  Host : String := ""
  AutoPoweron : Bool := false
  NameDescription : String := ""
  Addresses : List (String × String) := []
  ResourceSet : Option FlatResourceSet := none
deriving DecidableEq, Repr

/-- A value in the `map[string]interface{}` entries the data source builds. -/
inductive Attr where
  | str (s : String)
  | nat (n : Nat)
  | int (i : Int)
  | bool (b : Bool)
  | strList (l : List String)
deriving DecidableEq, Repr

/-- One step of the address-classification loop in `backupToMapList`
(data_source_backups.go lines 69-75): keys containing `"ipv4"` feed the
first accumulator, remaining keys containing `"ipv6"` feed the second,
anything else is dropped. -/
def addrStep (acc : List String × List String) (kv : String × String) :
    List String × List String :=
  if strContains kv.1 "ipv4" then (acc.1 ++ [kv.2], acc.2)
  else if strContains kv.1 "ipv6" then (acc.1, acc.2 ++ [kv.2])
  else acc

/-- The body of the loop in `backupToMapList` (data_source_backups.go
lines 65-98): classify the addresses, then build the per-backup map. The
map construction reads `backup.Memory.Static[1]` (line 84), which panics
in Go when `Static` has fewer than two elements; the panic is modelled as
`none`. The `resource_set` key is added only when `ResourceSet` is
non-nil. -/
def backupToMap (backup : Backup) : Option (List (String × Attr)) :=
  let acc := backup.Addresses.foldl addrStep ([], [])
  match backup.Memory.Static[1]? with
  | none => none
  | some memoryMax =>
    some ([("id", .str backup.Id),
      ("name_label", .str backup.NameLabel),
      ("cpus", .nat backup.CPUs.Number),
      ("cloud_config", .str backup.CloudConfig),
      ("cloud_network_config", .str backup.CloudNetworkConfig),
      ("tags", .strList backup.Tags),
      ("memory_max", .int memoryMax),
      ("affinity_host", .str backup.AffinityHost),
      ("template", .str backup.Template),
      ("high_availability", .str backup.HA),
      ("ipv4_addresses", .strList acc.1),
      ("ipv6_addresses", .strList acc.2),
      ("power_state", .str backup.PowerState),
      ("host", .str backup.Host),
      ("auto_poweron", .bool backup.AutoPoweron),
      ("name_description", .str backup.NameDescription)] ++
    (match backup.ResourceSet with
     | some rs => [("resource_set", .str rs.Id)]
     | none => []))

/-- `backupToMapList` (data_source_backups.go lines 63-102): one map per
backup, in input order; a panic while building any entry aborts the whole
loop, so the list is produced only when every entry is. -/
def backupToMapList : List Backup → Option (List (List (String × Attr)))
  | [] => some []
  | backup :: rest =>
    match backupToMap backup with
    | none => none
    | some entry =>
      match backupToMapList rest with
      | none => none
      | some entries => some (entry :: entries)

/-- The address pairs whose key contains `"ipv4"`. -/
def ipv4Pairs (l : List (String × String)) : List (String × String) :=
  l.filter (fun kv => strContains kv.1 "ipv4")

/-- The address pairs whose key does not contain `"ipv4"` but contains
`"ipv6"`. -/
def ipv6Pairs (l : List (String × String)) : List (String × String) :=
  l.filter (fun kv => !strContains kv.1 "ipv4" && strContains kv.1 "ipv6")

theorem addrFold_eq (l : List (String × String)) :
    ∀ acc : List String × List String,
      l.foldl addrStep acc =
        (acc.1 ++ (ipv4Pairs l).map Prod.snd, acc.2 ++ (ipv6Pairs l).map Prod.snd) := by
  induction l with
  | nil =>
    intro acc
    simp [ipv4Pairs, ipv6Pairs]
  | cons kv tl ih =>
    intro acc
    simp only [List.foldl_cons]
    by_cases h4 : strContains kv.1 "ipv4"
    · have hstep : addrStep acc kv = (acc.1 ++ [kv.2], acc.2) := by
        simp [addrStep, h4]
      rw [hstep, ih]
      simp [ipv4Pairs, ipv6Pairs, h4, List.filter_cons]
    · by_cases h6 : strContains kv.1 "ipv6"
      · have hstep : addrStep acc kv = (acc.1, acc.2 ++ [kv.2]) := by
          simp [addrStep, h4, h6]
        rw [hstep, ih]
        simp [ipv4Pairs, ipv6Pairs, h4, h6, List.filter_cons]
      · have hstep : addrStep acc kv = acc := by
          simp [addrStep, h4, h6]
        rw [hstep, ih]
        simp [ipv4Pairs, ipv6Pairs, h4, h6, List.filter_cons]

theorem backupToMap_lookups (b : Backup) (hs : 1 < b.Memory.Static.length) :
    ∃ entry, backupToMap b = some entry ∧
      entry.lookup "ipv4_addresses" =
        some (.strList ((ipv4Pairs b.Addresses).map Prod.snd)) ∧
      entry.lookup "ipv6_addresses" =
        some (.strList ((ipv6Pairs b.Addresses).map Prod.snd)) ∧
      entry.lookup "resource_set" =
        b.ResourceSet.map (fun rs => Attr.str rs.Id) := by
  have hacc := addrFold_eq b.Addresses ([], [])
  simp only [List.nil_append] at hacc
  have h1 : b.Memory.Static[1]? = some (b.Memory.Static.get ⟨1, hs⟩) :=
    List.getElem?_eq_getElem hs
  refine ⟨[("id", Attr.str b.Id),
      ("name_label", .str b.NameLabel),
      ("cpus", .nat b.CPUs.Number),
      ("cloud_config", .str b.CloudConfig),
      ("cloud_network_config", .str b.CloudNetworkConfig),
      ("tags", .strList b.Tags),
      ("memory_max", .int (b.Memory.Static.get ⟨1, hs⟩)),
      ("affinity_host", .str b.AffinityHost),
      ("template", .str b.Template),
      ("high_availability", .str b.HA),
      ("ipv4_addresses", .strList ((ipv4Pairs b.Addresses).map Prod.snd)),
      ("ipv6_addresses", .strList ((ipv6Pairs b.Addresses).map Prod.snd)),
      ("power_state", .str b.PowerState),
      ("host", .str b.Host),
      ("auto_poweron", .bool b.AutoPoweron),
      ("name_description", .str b.NameDescription)] ++
    (match b.ResourceSet with
     | some rs => [("resource_set", .str rs.Id)]
     | none => []), ?_, ?_, ?_, ?_⟩
  · simp [backupToMap, h1, hacc]
  · rcases hrs : b.ResourceSet with _ | rs <;> simp [hrs, List.lookup]
  · rcases hrs : b.ResourceSet with _ | rs <;> simp [hrs, List.lookup]
  · rcases hrs : b.ResourceSet with _ | rs <;> simp [hrs, List.lookup]

theorem backupToMapList_some (backups : List Backup)
    (h : ∀ x ∈ backups, 1 < x.Memory.Static.length) :
    ∃ result, backupToMapList backups = some result ∧
      result.length = backups.length ∧
      ∀ j : Nat, result[j]? = (backups[j]?).bind backupToMap := by
  induction backups with
  | nil =>
    exact ⟨[], rfl, rfl, fun j => by simp⟩
  | cons x xs ih =>
    have hx : 1 < x.Memory.Static.length := h x (List.mem_cons_self x xs)
    obtain ⟨ex, hex, -, -, -⟩ := backupToMap_lookups x hx
    obtain ⟨rest, hrest, hlen, hidx⟩ :=
      ih (fun y hy => h y (List.mem_cons_of_mem x hy))
    refine ⟨ex :: rest, ?_, by simp [hlen], ?_⟩
    · show (match backupToMap x with
        | none => none
        | some entry =>
          match backupToMapList xs with
          | none => none
          | some entries => some (entry :: entries)) = some (ex :: rest)
      rw [hex, hrest]
    · intro j
      cases j with
      | zero => simp [hex]
      | succ n => simpa using hidx n

/-- A concrete backup whose `Memory.Static` is empty, as the model's zero
value has it: Go panics on `Static[1]` while building its map. -/
def backupPanics : Backup where
  Id := "vm0"

/-- C10 counterexample: for the one-element list holding `backupPanics`,
`backupToMapList` produces no map at all (the Go code panics indexing
`Memory.Static[1]`), refuting the claim that every list of backups yields
one map per input backup. -/
theorem C10_counterexample :
    [backupPanics].length = 1 ∧ backupToMapList [backupPanics] = none :=
  ⟨rfl, rfl⟩

/-- C10 as amended: for every list of backups in which each backup's
`Memory.Static` holds at least two elements (otherwise the code panics on
`Static[1]` and no list is returned), `backupToMapList` yields one map per
input backup, in input order; in each entry the `ipv4_addresses` list
holds exactly the values of the addresses whose key contains `"ipv4"`,
the `ipv6_addresses` list holds exactly the values of the remaining
addresses whose key contains `"ipv6"`, an address whose key contains
neither substring feeds neither list, and the `resource_set` key is
present exactly when `ResourceSet` is non-nil (carrying its identifier). -/
theorem C10_backupToMapList_shape (backups : List Backup) (i : Nat) (b : Backup)
    (hb : backups[i]? = some b)
    (hstatic : ∀ x ∈ backups, 1 < x.Memory.Static.length) :
    ∃ result, backupToMapList backups = some result ∧
      result.length = backups.length ∧
      (∃ entry, result[i]? = some entry ∧
        entry.lookup "ipv4_addresses" =
          some (.strList ((ipv4Pairs b.Addresses).map Prod.snd)) ∧
        entry.lookup "ipv6_addresses" =
          some (.strList ((ipv6Pairs b.Addresses).map Prod.snd)) ∧
        entry.lookup "resource_set" =
          b.ResourceSet.map (fun rs => Attr.str rs.Id)) ∧
      ∀ kv ∈ b.Addresses,
        (strContains kv.1 "ipv4" = true →
          kv.2 ∈ (ipv4Pairs b.Addresses).map Prod.snd) ∧
        (strContains kv.1 "ipv4" = false → strContains kv.1 "ipv6" = true →
          kv.2 ∈ (ipv6Pairs b.Addresses).map Prod.snd) ∧
        (strContains kv.1 "ipv4" = false → strContains kv.1 "ipv6" = false →
          kv ∉ ipv4Pairs b.Addresses ∧ kv ∉ ipv6Pairs b.Addresses) := by
  obtain ⟨result, hres, hlen, hidx⟩ := backupToMapList_some backups hstatic
  have hbmem : b ∈ backups := by
    obtain ⟨hi, hbi⟩ := List.getElem?_eq_some.mp hb
    exact hbi ▸ List.getElem_mem hi
  obtain ⟨entry, hent, l4, l6, lrs⟩ :=
    backupToMap_lookups b (hstatic b hbmem)
  refine ⟨result, hres, hlen, ⟨entry, ?_, l4, l6, lrs⟩, ?_⟩
  · rw [hidx i, hb]
    simpa using hent
  · intro kv hkv
    refine ⟨?_, ?_, ?_⟩
    · intro h4
      simp only [List.mem_map]
      exact ⟨kv, List.mem_filter.mpr ⟨hkv, h4⟩, rfl⟩
    · intro h4 h6
      simp only [List.mem_map]
      exact ⟨kv, List.mem_filter.mpr ⟨hkv, by simp [h4, h6]⟩, rfl⟩
    · intro h4 h6
      constructor
      · intro hmem
        have hp := (List.mem_filter.mp hmem).2
        rw [h4] at hp
        exact Bool.false_ne_true hp
      · intro hmem
        have hp := (List.mem_filter.mp hmem).2
        simp [h4, h6] at hp

/-- A concrete backup having one IPv4 address, one IPv6 address, one
unclassified address, a resource set, and two static memory entries. -/
def backupExample : Backup where
  Id := "vm1"
  Memory := { Static := [0, 2147483648] }
  Addresses := [("0/ipv4/0", "10.0.0.5"), ("0/ipv6/0", "fe80::1"), ("misc", "x")]
  ResourceSet := some ⟨"rs1"⟩

/-- Witness for the amended C10 at a concrete backup list. -/
theorem C10_backupToMapList_shape_witness :
    ∃ result, backupToMapList [backupExample] = some result ∧
      result.length = 1 ∧
      (∃ entry, result[0]? = some entry ∧
        entry.lookup "ipv4_addresses" = some (.strList ["10.0.0.5"]) ∧
        entry.lookup "ipv6_addresses" = some (.strList ["fe80::1"]) ∧
        entry.lookup "resource_set" = some (.str "rs1")) := by
  obtain ⟨result, h1, h2, ⟨entry, h3, h4, h5, h6⟩, -⟩ :=
    C10_backupToMapList_shape [backupExample] 0 backupExample rfl (by decide)
  exact ⟨result, h1, h2, entry, h3, h4, h5, h6⟩

end XOBackup
